import Mathlib

/-!
Verification of the home-battery dispatch optimiser
(`src/app/core/optimiser.py`, function `mvp_cost_minimiser`).

The Python function receives pandas DataFrames, merges them (lines 44-49),
cleans the merged frame (lines 50-70), extracts numeric arrays and derived
scalars (lines 72-84), builds a CVXPY linear program (lines 86-126), solves
it, checks the terminal status (lines 128-129), and shapes the solved primal
values into the result DataFrame (lines 131-159).

The embedding below starts from the merged frame (the spec's pre-joined
input contract; all verified claims cite line 50 onwards).  Machine floats
are modelled as exact rationals; a frame cell is either a missing value
(`None`/`NaN`, which pandas `notna` rejects and `fillna` fills), an infinite
value (which `notna` keeps but `np.isfinite` rejects and `fillna` does not
fill), or a finite numeric value.  The external CVXPY solver is modelled as
an oracle returning a terminal status and a primal assignment, together with
the soundness property that an `optimal` status comes with a primal
assignment satisfying every constraint of the built program.
-/

namespace HomeBattery

/-- One cell of the merged frame.  `na` is a missing value (`None` or
`NaN`): dropped by the `notna` mask and filled by `fillna`.  `inf` is a
non-finite value (`±inf`): it passes `notna` but fails `np.isfinite`, and is
not filled by `fillna`.  `val q` is a finite numeric value. -/
inductive Cell where
  | na : Cell
  | inf : Cell
  | val : ℚ → Cell
  deriving DecidableEq

/-- The combined row mask of optimiser.py lines 56-59: `notna` and
`np.isfinite` together keep exactly the finite numeric cells. -/
def Cell.isFiniteVal : Cell → Bool
  | .val _ => true
  | _ => false

/-- pandas `fillna d`: replaces a missing value by the default `d`;
non-finite and finite values are left alone. -/
def Cell.fillna (c : Cell) (d : ℚ) : Cell :=
  match c with
  | .na => .val d
  | c => c

/-- Numeric extraction (`.values`).  Only ever applied to rows that passed
the finite-value mask, where the cell is `val q`; the value on `na`/`inf` is
an arbitrary junk value. -/
def Cell.num : Cell → ℚ
  | .val q => q
  | _ => 0

/-- One row of the merged frame: `PeriodEnd` timestamp plus the three
numeric cells (`PvEstimate`, `price`, `demand`). -/
structure Row where
  periodEnd : ℤ
  pvEstimate : Cell
  price : Cell
  demand : Cell
  deriving DecidableEq

/-- The merged frame of optimiser.py line 50.  The three `has*` flags model
dynamic column presence (`if c in merged.columns`, lines 53, 67, 69). -/
structure Frame where
  hasPv : Bool
  hasPrice : Bool
  hasDemand : Bool
  rows : List Row
  deriving DecidableEq

/-- The scalar keyword parameters of `mvp_cost_minimiser`, with the source's
default values. -/
structure BatteryConfig where
  battery_capacity_kwh : ℚ := 15
  initial_soc_pct : ℚ := 50
  min_soc_pct : ℚ := 20
  max_soc_pct : ℚ := 90
  charge_power_kw : ℚ := 3
  discharge_power_kw : ℚ := 3
  export_price_pence : ℚ := 15
  deriving DecidableEq

/-- The failure surface of the optimisation call.  `configurationError` is
the `ValueError` of line 55 (no numeric columns), `noDataError` the
`ValueError` of line 65 (empty cleaned series), `solverError` the
`ValueError` of line 129 (non-optimal terminal status), and `keyError` the
pandas `KeyError` raised by the unconditional column accesses of
lines 73-75 when a column is absent. -/
inductive OptError where
  | configurationError
  | noDataError
  | solverError
  | keyError
  deriving DecidableEq

/-- Row-level keep mask (lines 56-59): every present column among
`price`, `PvEstimate`, `demand` must hold a finite numeric value. -/
def rowKeep (f : Frame) (r : Row) : Bool :=
  (!f.hasPrice || r.price.isFiniteVal) &&
  (!f.hasPv || r.pvEstimate.isFiniteVal) &&
  (!f.hasDemand || r.demand.isFiniteVal)

/-- Ascending order on `PeriodEnd` used by `sort_values` (line 50). -/
def rowLe (a b : Row) : Prop := a.periodEnd ≤ b.periodEnd

instance : DecidableRel rowLe := fun a b =>
  inferInstanceAs (Decidable (a.periodEnd ≤ b.periodEnd))

instance : IsTotal Row rowLe := ⟨fun a b => Int.le_total a.periodEnd b.periodEnd⟩

instance : IsTrans Row rowLe := ⟨fun _ _ _ hab hbc => le_trans hab hbc⟩

/-- Post-filter defaulting (lines 66-70): fill a remaining missing
`PvEstimate` with 0.0 and a remaining missing `demand` with 0.5, each only
when the column is present.  `price` is never defaulted. -/
def fillRow (f : Frame) (r : Row) : Row :=
  { r with
    pvEstimate := if f.hasPv then r.pvEstimate.fillna 0 else r.pvEstimate
    demand := if f.hasDemand then r.demand.fillna (1/2) else r.demand }

/-- Input normalisation, optimiser.py lines 50-70: sort by `PeriodEnd`
ascending, fail when no numeric column is present, drop rows with a
missing or non-finite required value, fail when nothing remains, then apply
the post-filter defaulting.  (The source guards the row drop behind
`if dropped > 0`; filtering when no row is dropped is the identity, so the
guard is behaviourally irrelevant.) -/
def cleanFrame (f : Frame) : Except OptError Frame :=
  if !(f.hasPrice || f.hasPv || f.hasDemand) then .error .configurationError
  else if ((f.rows.insertionSort rowLe).filter (rowKeep f)).isEmpty then
    .error .noDataError
  else .ok { f with
    rows := ((f.rows.insertionSort rowLe).filter (rowKeep f)).map (fillRow f) }

/-- Identical to `cleanFrame` except that the post-filter defaulting lines
(optimiser.py lines 66-70) are removed.  Used to settle the refinement
claim that the defaulting never fires. -/
def cleanFrameNoFill (f : Frame) : Except OptError Frame :=
  if !(f.hasPrice || f.hasPv || f.hasDemand) then .error .configurationError
  else if ((f.rows.insertionSort rowLe).filter (rowKeep f)).isEmpty then
    .error .noDataError
  else .ok { f with rows := (f.rows.insertionSort rowLe).filter (rowKeep f) }

/-- The numeric data and derived scalars of optimiser.py lines 72-84, with
`dt = 0.5` hours baked in exactly as in the source. -/
structure LpData where
  n : ℕ
  import_prices : List ℚ
  solar_gen : List ℚ
  demand : List ℚ
  export_price_gbp : ℚ
  max_batt_charge_energy : ℚ
  max_batt_discharge_energy : ℚ
  soc_min_kwh : ℚ
  soc_max_kwh : ℚ
  init_soc_kwh : ℚ
  deriving DecidableEq

/-- Extraction of the LP data from the cleaned frame (lines 72-84).  The
source indexes `merged["price"]`, `merged["PvEstimate"]` and
`merged["demand"]` unconditionally, so an absent column surfaces as a
`KeyError`. -/
def mkLpData (f : Frame) (cfg : BatteryConfig) : Except OptError LpData :=
  if f.hasPrice && f.hasPv && f.hasDemand then
    .ok { n := f.rows.length
          import_prices := f.rows.map (fun r => r.price.num / 100)
          solar_gen := f.rows.map (fun r => r.pvEstimate.num)
          demand := f.rows.map (fun r => r.demand.num)
          export_price_gbp := cfg.export_price_pence / 100
          max_batt_charge_energy := cfg.charge_power_kw * (1/2)
          max_batt_discharge_energy := cfg.discharge_power_kw * (1/2)
          soc_min_kwh := (cfg.min_soc_pct / 100) * cfg.battery_capacity_kwh
          soc_max_kwh := (cfg.max_soc_pct / 100) * cfg.battery_capacity_kwh
          init_soc_kwh := (cfg.initial_soc_pct / 100) * cfg.battery_capacity_kwh }
  else .error .keyError

/-- A candidate primal assignment for the five variable vectors of
optimiser.py lines 87-91. -/
structure Solution where
  b_charge : List ℚ
  b_discharge : List ℚ
  g_import : List ℚ
  g_export : List ℚ
  soc : List ℚ
  deriving DecidableEq

/-- Decidable check that a primal assignment satisfies every constraint of
the LP built in optimiser.py lines 93-118: nonnegativity of the four flow
variables (lines 87-90), the SOC recurrence (lines 98-101), the SOC bounds
(lines 104-105), the battery power caps (lines 108-109), the grid caps
(lines 112-113) and the per-period energy balance (lines 116-118). -/
def feasibleB (lp : LpData) (s : Solution) : Bool :=
  (s.b_charge.length == lp.n) && (s.b_discharge.length == lp.n) &&
  (s.g_import.length == lp.n) && (s.g_export.length == lp.n) &&
  (s.soc.length == lp.n) &&
  (List.range lp.n).all (fun t =>
    let c := s.b_charge.getD t 0
    let d := s.b_discharge.getD t 0
    let gi := s.g_import.getD t 0
    let ge := s.g_export.getD t 0
    let st := s.soc.getD t 0
    let prev := if t == 0 then lp.init_soc_kwh else s.soc.getD (t - 1) 0
    decide (0 ≤ c) && decide (0 ≤ d) && decide (0 ≤ gi) && decide (0 ≤ ge) &&
    decide (st = prev + c - d) &&
    decide (lp.soc_min_kwh ≤ st) && decide (st ≤ lp.soc_max_kwh) &&
    decide (c ≤ lp.max_batt_charge_energy) &&
    decide (d ≤ lp.max_batt_discharge_energy) &&
    decide (gi ≤ lp.max_batt_charge_energy) &&
    decide (ge ≤ lp.max_batt_discharge_energy) &&
    decide (lp.solar_gen.getD t 0 + d + gi - c - ge = lp.demand.getD t 0))

/-- Feasibility of a primal assignment for the built LP. -/
def Feasible (lp : LpData) (s : Solution) : Prop := feasibleB lp s = true

/-- The minimised objective of optimiser.py lines 120-123:
`sum(g_import * import_prices - g_export * export_price_gbp)` plus the grid
penalty `0.001 * sum(g_import + g_export)`. -/
def objective (lp : LpData) (s : Solution) : ℚ :=
  ((List.range lp.n).map (fun t =>
      s.g_import.getD t 0 * lp.import_prices.getD t 0 -
      s.g_export.getD t 0 * lp.export_price_gbp)).sum +
  (1/1000) * ((List.range lp.n).map (fun t =>
      s.g_import.getD t 0 + s.g_export.getD t 0)).sum

/-- Modelled from the spec: the single most expensive per-period import
price over the whole horizon, `max(import_prices)` (spec section 4.2,
foresight term).  The fold base 0 is only reached on an empty horizon. -/
def maxImportPrice (lp : LpData) : ℚ :=
  lp.import_prices.foldr max 0

/-- Modelled from the spec: the objective family of spec section 4.2 with a
configurable foresight weight `w`, namely
`base_cost + 0.001 * sum(g_import + g_export)`
`- w * sum(b_charge[t] * (max(import_prices) - import_prices[t]))`, where
`base_cost = sum(g_import[t] * import_prices[t]) - sum(g_export[t] * export_price)`.
The repository's code has no foresight term, so this family is written from
the spec's words for comparison against `objective`. -/
def spec_objective (w : ℚ) (lp : LpData) (s : Solution) : ℚ :=
  ((List.range lp.n).map (fun t =>
      s.g_import.getD t 0 * lp.import_prices.getD t 0)).sum -
  ((List.range lp.n).map (fun t =>
      s.g_export.getD t 0 * lp.export_price_gbp)).sum +
  (1/1000) * ((List.range lp.n).map (fun t =>
      s.g_import.getD t 0 + s.g_export.getD t 0)).sum -
  w * ((List.range lp.n).map (fun t =>
      s.b_charge.getD t 0 * (maxImportPrice lp - lp.import_prices.getD t 0))).sum

/-- Terminal status reported by the external solver; every CVXPY status
other than `OPTIMAL` is collapsed into `notOptimal` (the source only tests
`problem.status != cp.OPTIMAL`, line 128). -/
inductive SolverStatus where
  | optimal
  | notOptimal
  deriving DecidableEq

/-- What the external solve call produces: a terminal status and a primal
assignment. -/
structure SolverResult where
  status : SolverStatus
  primal : Solution
  deriving DecidableEq

/-- The external LP solver as an abstract oracle. -/
def Solver : Type := LpData → SolverResult

/-- Soundness of the solver oracle: an `optimal` terminal status comes with
a primal assignment satisfying every constraint of the submitted program.
This is the only property of CVXPY the verification relies on. -/
def SolverSound (solve : Solver) : Prop :=
  ∀ lp, (solve lp).status = .optimal → Feasible lp (solve lp).primal

/-- The display threshold `eps = 1e-3` of optimiser.py line 140. -/
def eps : ℚ := 1/1000

/-- One record of the result DataFrame (lines 135-157). -/
structure PlanRow where
  periodEnd : ℤ
  demand : ℚ
  solar : ℚ
  price : ℚ
  batt_charge_kwh : ℚ
  batt_discharge_kwh : ℚ
  grid_import_kwh : ℚ
  grid_export_kwh : ℚ
  soc_kwh : ℚ
  soc_pct : ℚ
  net_battery_kwh : ℚ
  net_grid_kwh : ℚ
  cost_gbp : ℚ
  deriving DecidableEq

/-- Junk row backing out-of-range `getD` accesses; never reached on the
in-range indices the result shaper uses. -/
def junkRow : Row := ⟨0, .na, .na, .na⟩

/-- The result shaping of optimiser.py lines 131-157 for period `t`:
net flows `net_batt = b_charge - b_discharge` and
`net_grid = g_import - g_export`, the `eps`-thresholded display
decomposition (lines 140-147), `soc_pct = soc / capacity * 100` (line 133),
and the per-period cost from the raw solved grid flows (line 132). -/
def mkPlanRow (f : Frame) (cfg : BatteryConfig) (lp : LpData) (s : Solution)
    (t : ℕ) : PlanRow :=
  let r := f.rows.getD t junkRow
  let c := s.b_charge.getD t 0
  let d := s.b_discharge.getD t 0
  let gi := s.g_import.getD t 0
  let ge := s.g_export.getD t 0
  let net_batt := c - d
  let net_grid := gi - ge
  { periodEnd := r.periodEnd
    demand := lp.demand.getD t 0
    solar := lp.solar_gen.getD t 0
    price := r.price.num
    batt_charge_kwh := if eps < net_batt then net_batt else 0
    batt_discharge_kwh := if net_batt < -eps then -net_batt else 0
    grid_import_kwh := if eps < net_grid then net_grid else 0
    grid_export_kwh := if net_grid < -eps then -net_grid else 0
    soc_kwh := s.soc.getD t 0
    soc_pct := s.soc.getD t 0 / cfg.battery_capacity_kwh * 100
    net_battery_kwh := net_batt
    net_grid_kwh := net_grid
    cost_gbp := gi * lp.import_prices.getD t 0 - ge * lp.export_price_gbp }

/-- The full result DataFrame: one shaped record per period. -/
def buildResult (f : Frame) (cfg : BatteryConfig) (lp : LpData)
    (s : Solution) : List PlanRow :=
  (List.range lp.n).map (mkPlanRow f cfg lp s)

/-- The optimisation call `mvp_cost_minimiser`, starting from the merged
frame: normalise (lines 50-70), extract the LP data (lines 72-84), submit
to the solver, fail on a non-optimal terminal status (lines 128-129), and
otherwise shape the primal values into the plan (lines 131-159). -/
def mvp_cost_minimiser (solve : Solver) (merged : Frame)
    (cfg : BatteryConfig) : Except OptError (List PlanRow) :=
  match cleanFrame merged with
  | .error e => .error e
  | .ok cleaned =>
    match mkLpData cleaned cfg with
    | .error e => .error e
    | .ok lp =>
      if (solve lp).status = .optimal then
        .ok (buildResult cleaned cfg lp (solve lp).primal)
      else .error .solverError

/-- `mvp_cost_minimiser` with the post-filter defaulting lines removed,
for the refinement claim. -/
def mvp_cost_minimiser_nofill (solve : Solver) (merged : Frame)
    (cfg : BatteryConfig) : Except OptError (List PlanRow) :=
  match cleanFrameNoFill merged with
  | .error e => .error e
  | .ok cleaned =>
    match mkLpData cleaned cfg with
    | .error e => .error e
    | .ok lp =>
      if (solve lp).status = .optimal then
        .ok (buildResult cleaned cfg lp (solve lp).primal)
      else .error .solverError

/-- Relative-tolerance closeness, `|actual - desired| <= tol * |desired|`
(the spec's "within rtol"). -/
def withinRtol (actual desired tol : ℚ) : Prop :=
  |actual - desired| ≤ tol * |desired|

instance (a d t : ℚ) : Decidable (withinRtol a d t) :=
  inferInstanceAs (Decidable (_ ≤ _))

/-- A solver oracle used to instantiate theorems on concrete inputs: it
answers `optimal` with the fixed assignment `s` exactly when `s` satisfies
every constraint of the submitted program, and reports failure otherwise. -/
def oracle (s : Solution) : Solver := fun lp =>
  if feasibleB lp s then ⟨.optimal, s⟩ else ⟨.notOptimal, s⟩

/-- Concrete two-period merged frame: prices 10p then 50p, no solar,
constant 0.5 kWh demand. -/
def frameW : Frame :=
  ⟨true, true, true,
   [⟨0, .val 0, .val 10, .val (1/2)⟩, ⟨1800, .val 0, .val 50, .val (1/2)⟩]⟩

/-- The source's default configuration. -/
def cfgW : BatteryConfig := {}

/-- A feasible assignment for `frameW` under the default configuration:
meet all demand from the grid, leave the battery untouched. -/
def solW : Solution :=
  ⟨[0, 0], [0, 0], [1/2, 1/2], [0, 0], [15/2, 15/2]⟩

/-- The plan the result shaper produces from `solW` on `frameW`. -/
def planW : List PlanRow :=
  [⟨0, 1/2, 0, 10, 0, 0, 1/2, 0, 15/2, 50, 0, 1/2, 1/20⟩,
   ⟨1800, 1/2, 0, 50, 0, 0, 1/2, 0, 15/2, 50, 0, 1/2, 1/4⟩]

/-- One-period frame with a tiny demand of 0.0005 kWh (price 50p, no
solar). -/
def frameC1 : Frame := ⟨true, true, true, [⟨0, .val 0, .val 50, .val (1/2000)⟩]⟩

/-- Configuration starting the battery at the minimum state of charge, so
that it cannot discharge. -/
def cfgC1 : BatteryConfig := { initial_soc_pct := 20 }

/-- The unique optimum for `frameC1`/`cfgC1`: import exactly the 0.0005 kWh
demand, touch nothing else. -/
def solC1 : Solution := ⟨[0], [0], [1/2000], [0], [3]⟩

/-- The LP data the pipeline builds from `frameC1`/`cfgC1` (fields written
exactly as the extraction computes them). -/
def lpC1 : LpData :=
  ⟨1, [50/100], [0], [1/2000], 15/100, 3 * (1/2), 3 * (1/2),
   20/100 * 15, 90/100 * 15, 20/100 * 15⟩

/-- The single plan record returned on `frameC1`/`cfgC1`: the 0.0005 kWh
grid import sits below the display threshold, so every display field is 0
while `cost_gbp` is still 0.00025. -/
def planRowC1 : PlanRow := ⟨0, 1/2000, 0, 50, 0, 0, 0, 0, 3, 20, 0, 1/2000, 1/4000⟩

/-- Concrete LP data over two periods (prices 10p and 50p) used to compare
the code's objective with the spec's foresight family. -/
def lpC2 : LpData := ⟨2, [1/10, 1/2], [0, 0], [1/2, 1/2], 3/20, 3/2, 3/2, 3, 27/2, 15/2⟩

/-- An assignment charging 1 kWh in the cheap period; its foresight term is
nonzero, which separates the two objectives. -/
def solC2 : Solution := ⟨[1, 0], [0, 0], [3/2, 1/2], [0, 0], [17/2, 17/2]⟩

/-- A solver that always reports a non-optimal terminal status. -/
def failingSolver : Solver := fun _ => ⟨.notOptimal, ⟨[], [], [], [], []⟩⟩

/-- Frame whose every row has a missing demand value. -/
def frameAllNullDemand : Frame :=
  ⟨true, true, true,
   [⟨0, .val 0, .val 10, .na⟩, ⟨1800, .val 1, .val 50, .na⟩]⟩

/-- Frame whose rows arrive in descending time order with one non-finite
price row, used to exercise sorting and row dropping. -/
def frameC9 : Frame :=
  ⟨true, true, true,
   [⟨3600, .val 0, .val 30, .val (1/2)⟩,
    ⟨0, .val 0, .val 10, .val (1/2)⟩,
    ⟨1800, .val 0, .inf, .val (1/2)⟩]⟩

/-- A feasible assignment for the two kept rows of `frameC9`. -/
def solC9 : Solution := ⟨[0, 0], [0, 0], [1/2, 1/2], [0, 0], [15/2, 15/2]⟩

/-- The cleaned frame produced from `frameC9`: rows sorted ascending, the
non-finite-price row dropped. -/
def frameC9Clean : Frame :=
  ⟨true, true, true,
   [⟨0, .val 0, .val 10, .val (1/2)⟩, ⟨3600, .val 0, .val 30, .val (1/2)⟩]⟩

/-- The LP data the pipeline builds from `frameC9` with the default
configuration (fields written exactly as the extraction computes them). -/
def lpC9 : LpData :=
  ⟨2, [10/100, 30/100], [0, 0], [1/2, 1/2], 15/100, 3 * (1/2), 3 * (1/2),
   20/100 * 15, 90/100 * 15, 50/100 * 15⟩

/-- The plan returned on `frameC9` with the `solC9` oracle. -/
def planC9 : List PlanRow :=
  [⟨0, 1/2, 0, 10, 0, 0, 1/2, 0, 15/2, 50, 0, 1/2, 1/20⟩,
   ⟨3600, 1/2, 0, 30, 0, 0, 1/2, 0, 15/2, 50, 0, 1/2, 3/20⟩]

/-- The LP data the pipeline builds from `frameW` with the default
configuration (fields written exactly as the extraction computes them). -/
def lpW : LpData :=
  ⟨2, [10/100, 50/100], [0, 0], [1/2, 1/2], 15/100, 3 * (1/2), 3 * (1/2),
   20/100 * 15, 90/100 * 15, 50/100 * 15⟩

/-- Junk plan record backing out-of-range `getD` accesses in statements;
never reached on in-range indices. -/
def junkPlanRow : PlanRow := ⟨0, 0, 0, 0, 0, 0, 0, 0, 0, 0, 0, 0, 0⟩

/- ======================================================================
   Theorems.  Helper lemmas first, then one theorem per claim (with
   witnesses and counterexamples as required).
   ====================================================================== -/

/-- A cell that passed the finite-value mask is unchanged by `fillna`. -/
theorem Cell.fillna_eq_of_isFiniteVal {c : Cell} (h : c.isFiniteVal = true)
    (d : ℚ) : c.fillna d = c := by
  cases c with
  | na => simp [Cell.isFiniteVal] at h
  | inf => simp [Cell.isFiniteVal] at h
  | val q => rfl

/-- A row that passed the keep mask is unchanged by the post-filter
defaulting. -/
theorem fillRow_eq_of_keep {f : Frame} {r : Row} (h : rowKeep f r = true) :
    fillRow f r = r := by
  unfold rowKeep at h
  simp only [Bool.and_eq_true, Bool.or_eq_true, Bool.not_eq_true'] at h
  obtain ⟨⟨hp, hpv⟩, hd⟩ := h
  have e1 : (if f.hasPv then r.pvEstimate.fillna 0 else r.pvEstimate) = r.pvEstimate := by
    rcases hpv with h0 | h0
    · simp [h0]
    · split
      · exact Cell.fillna_eq_of_isFiniteVal h0 0
      · rfl
  have e2 : (if f.hasDemand then r.demand.fillna (1/2) else r.demand) = r.demand := by
    rcases hd with h0 | h0
    · simp [h0]
    · split
      · exact Cell.fillna_eq_of_isFiniteVal h0 (1/2)
      · rfl
  unfold fillRow
  rw [e1, e2]

/-- The post-filter defaulting map is the identity on the filtered list, so
the two cleaning variants agree everywhere. -/
theorem cleanFrame_eq_nofill (f : Frame) : cleanFrame f = cleanFrameNoFill f := by
  unfold cleanFrame cleanFrameNoFill
  split
  · rfl
  · split
    · rfl
    · have hmap : ((f.rows.insertionSort rowLe).filter (rowKeep f)).map (fillRow f)
          = (f.rows.insertionSort rowLe).filter (rowKeep f) := by
        have h1 : ∀ r ∈ (f.rows.insertionSort rowLe).filter (rowKeep f),
            fillRow f r = r := fun r hr =>
          fillRow_eq_of_keep (List.of_mem_filter hr)
        calc ((f.rows.insertionSort rowLe).filter (rowKeep f)).map (fillRow f)
            = ((f.rows.insertionSort rowLe).filter (rowKeep f)).map id :=
              List.map_congr_left h1
          _ = _ := List.map_id _
      rw [hmap]

/-- Inversion of a successful cleaning: the cleaned rows are exactly the
sorted, filtered input rows, they are nonempty, and the column-presence
flags are inherited. -/
theorem cleanFrame_ok_elim {f cleaned : Frame}
    (h : cleanFrame f = .ok cleaned) :
    cleaned.rows = (f.rows.insertionSort rowLe).filter (rowKeep f) ∧
    cleaned.rows ≠ [] ∧
    cleaned.hasPv = f.hasPv ∧ cleaned.hasPrice = f.hasPrice ∧
    cleaned.hasDemand = f.hasDemand := by
  rw [cleanFrame_eq_nofill] at h
  unfold cleanFrameNoFill at h
  split at h
  · cases h
  · split at h
    · cases h
    · rename_i hne
      have hc : cleaned = { f with rows := (f.rows.insertionSort rowLe).filter (rowKeep f) } :=
        (Except.ok.injEq _ _).mp h |>.symm
      subst hc
      refine ⟨rfl, ?_, rfl, rfl, rfl⟩
      simpa [List.isEmpty_iff] using hne

/-- Inversion of a successful LP-data extraction. -/
theorem mkLpData_ok_elim {f : Frame} {cfg : BatteryConfig} {lp : LpData}
    (h : mkLpData f cfg = .ok lp) :
    lp.n = f.rows.length ∧
    lp.import_prices = f.rows.map (fun r => r.price.num / 100) ∧
    lp.solar_gen = f.rows.map (fun r => r.pvEstimate.num) ∧
    lp.demand = f.rows.map (fun r => r.demand.num) ∧
    lp.export_price_gbp = cfg.export_price_pence / 100 ∧
    lp.max_batt_charge_energy = cfg.charge_power_kw * (1/2) ∧
    lp.max_batt_discharge_energy = cfg.discharge_power_kw * (1/2) ∧
    lp.soc_min_kwh = (cfg.min_soc_pct / 100) * cfg.battery_capacity_kwh ∧
    lp.soc_max_kwh = (cfg.max_soc_pct / 100) * cfg.battery_capacity_kwh ∧
    lp.init_soc_kwh = (cfg.initial_soc_pct / 100) * cfg.battery_capacity_kwh := by
  unfold mkLpData at h
  split at h
  · have hc := (Except.ok.injEq _ _).mp h
    subst hc
    exact ⟨rfl, rfl, rfl, rfl, rfl, rfl, rfl, rfl, rfl, rfl⟩
  · cases h

/-- Inversion of a successful optimisation call: there are a cleaned frame
and LP data such that the solver reported `optimal` and the plan is the
shaped primal assignment. -/
theorem mvp_ok_elim {solve : Solver} {f : Frame} {cfg : BatteryConfig}
    {plan : List PlanRow}
    (h : mvp_cost_minimiser solve f cfg = .ok plan) :
    ∃ cleaned lp, cleanFrame f = .ok cleaned ∧ mkLpData cleaned cfg = .ok lp ∧
      (solve lp).status = .optimal ∧
      plan = buildResult cleaned cfg lp (solve lp).primal := by
  unfold mvp_cost_minimiser at h
  split at h
  · cases h
  · rename_i cleaned hc
    split at h
    · cases h
    · rename_i lp hl
      split at h
      · rename_i hs
        exact ⟨cleaned, lp, hc, hl, hs, ((Except.ok.injEq _ _).mp h).symm⟩
      · cases h

/-- The length components of feasibility. -/
theorem feasible_lengths {lp : LpData} {s : Solution} (h : Feasible lp s) :
    s.b_charge.length = lp.n ∧ s.b_discharge.length = lp.n ∧
    s.g_import.length = lp.n ∧ s.g_export.length = lp.n ∧
    s.soc.length = lp.n := by
  unfold Feasible feasibleB at h
  simp only [Bool.and_eq_true, beq_iff_eq] at h
  exact ⟨h.1.1.1.1.1, h.1.1.1.1.2, h.1.1.1.2, h.1.1.2, h.1.2⟩

/-- The per-period constraint components of feasibility, at any in-range
period. -/
theorem feasible_at {lp : LpData} {s : Solution} (h : Feasible lp s)
    {t : ℕ} (ht : t < lp.n) :
    0 ≤ s.b_charge.getD t 0 ∧ 0 ≤ s.b_discharge.getD t 0 ∧
    0 ≤ s.g_import.getD t 0 ∧ 0 ≤ s.g_export.getD t 0 ∧
    s.soc.getD t 0 = (if t = 0 then lp.init_soc_kwh else s.soc.getD (t - 1) 0) +
      s.b_charge.getD t 0 - s.b_discharge.getD t 0 ∧
    lp.soc_min_kwh ≤ s.soc.getD t 0 ∧ s.soc.getD t 0 ≤ lp.soc_max_kwh ∧
    s.b_charge.getD t 0 ≤ lp.max_batt_charge_energy ∧
    s.b_discharge.getD t 0 ≤ lp.max_batt_discharge_energy ∧
    s.g_import.getD t 0 ≤ lp.max_batt_charge_energy ∧
    s.g_export.getD t 0 ≤ lp.max_batt_discharge_energy ∧
    lp.solar_gen.getD t 0 + s.b_discharge.getD t 0 + s.g_import.getD t 0 -
      s.b_charge.getD t 0 - s.g_export.getD t 0 = lp.demand.getD t 0 := by
  unfold Feasible feasibleB at h
  simp only [Bool.and_eq_true, beq_iff_eq, List.all_eq_true,
    decide_eq_true_eq] at h
  have h2 := h.2 t (List.mem_range.mpr ht)
  simp only [and_assoc] at h2
  exact h2

/-- The witness oracle is a sound solver. -/
theorem oracle_sound (s : Solution) : SolverSound (oracle s) := by
  intro lp h
  by_cases hb : feasibleB lp s = true
  · have hp : (oracle s lp).primal = s := by simp [oracle, hb]
    rw [hp]
    exact hb
  · simp [oracle, hb] at h

/-- Projection lemmas for the shaped record (all definitional). -/
theorem mkPlanRow_periodEnd (f : Frame) (cfg : BatteryConfig) (lp : LpData)
    (s : Solution) (t : ℕ) :
    (mkPlanRow f cfg lp s t).periodEnd = (f.rows.getD t junkRow).periodEnd := rfl

theorem mkPlanRow_demand (f : Frame) (cfg : BatteryConfig) (lp : LpData)
    (s : Solution) (t : ℕ) :
    (mkPlanRow f cfg lp s t).demand = lp.demand.getD t 0 := rfl

theorem mkPlanRow_solar (f : Frame) (cfg : BatteryConfig) (lp : LpData)
    (s : Solution) (t : ℕ) :
    (mkPlanRow f cfg lp s t).solar = lp.solar_gen.getD t 0 := rfl

theorem mkPlanRow_soc (f : Frame) (cfg : BatteryConfig) (lp : LpData)
    (s : Solution) (t : ℕ) :
    (mkPlanRow f cfg lp s t).soc_kwh = s.soc.getD t 0 := rfl

theorem mkPlanRow_net_batt (f : Frame) (cfg : BatteryConfig) (lp : LpData)
    (s : Solution) (t : ℕ) :
    (mkPlanRow f cfg lp s t).net_battery_kwh =
      s.b_charge.getD t 0 - s.b_discharge.getD t 0 := rfl

theorem mkPlanRow_net_grid (f : Frame) (cfg : BatteryConfig) (lp : LpData)
    (s : Solution) (t : ℕ) :
    (mkPlanRow f cfg lp s t).net_grid_kwh =
      s.g_import.getD t 0 - s.g_export.getD t 0 := rfl

theorem mkPlanRow_cost (f : Frame) (cfg : BatteryConfig) (lp : LpData)
    (s : Solution) (t : ℕ) :
    (mkPlanRow f cfg lp s t).cost_gbp =
      s.g_import.getD t 0 * lp.import_prices.getD t 0 -
      s.g_export.getD t 0 * lp.export_price_gbp := rfl

theorem mkPlanRow_batt_charge (f : Frame) (cfg : BatteryConfig) (lp : LpData)
    (s : Solution) (t : ℕ) :
    (mkPlanRow f cfg lp s t).batt_charge_kwh =
      if eps < s.b_charge.getD t 0 - s.b_discharge.getD t 0 then
        s.b_charge.getD t 0 - s.b_discharge.getD t 0 else 0 := rfl

theorem mkPlanRow_batt_discharge (f : Frame) (cfg : BatteryConfig) (lp : LpData)
    (s : Solution) (t : ℕ) :
    (mkPlanRow f cfg lp s t).batt_discharge_kwh =
      if s.b_charge.getD t 0 - s.b_discharge.getD t 0 < -eps then
        -(s.b_charge.getD t 0 - s.b_discharge.getD t 0) else 0 := rfl

theorem mkPlanRow_grid_import (f : Frame) (cfg : BatteryConfig) (lp : LpData)
    (s : Solution) (t : ℕ) :
    (mkPlanRow f cfg lp s t).grid_import_kwh =
      if eps < s.g_import.getD t 0 - s.g_export.getD t 0 then
        s.g_import.getD t 0 - s.g_export.getD t 0 else 0 := rfl

theorem mkPlanRow_grid_export (f : Frame) (cfg : BatteryConfig) (lp : LpData)
    (s : Solution) (t : ℕ) :
    (mkPlanRow f cfg lp s t).grid_export_kwh =
      if s.g_import.getD t 0 - s.g_export.getD t 0 < -eps then
        -(s.g_import.getD t 0 - s.g_export.getD t 0) else 0 := rfl

/-- The shaped plan has one record per period. -/
theorem buildResult_length (f : Frame) (cfg : BatteryConfig) (lp : LpData)
    (s : Solution) : (buildResult f cfg lp s).length = lp.n := by
  simp [buildResult]

/-- In-range indexing into the shaped plan. -/
theorem buildResult_getD (f : Frame) (cfg : BatteryConfig) (lp : LpData)
    (s : Solution) {t : ℕ} (ht : t < lp.n) :
    (buildResult f cfg lp s).getD t junkPlanRow = mkPlanRow f cfg lp s t := by
  unfold buildResult
  rw [List.getD_eq_getElem _ _ (by simpa using ht)]
  simp

/-- Every member of the shaped plan is the shaped record of an in-range
period. -/
theorem buildResult_mem {f : Frame} {cfg : BatteryConfig} {lp : LpData}
    {s : Solution} {p : PlanRow} (hp : p ∈ buildResult f cfg lp s) :
    ∃ t, t < lp.n ∧ p = mkPlanRow f cfg lp s t := by
  unfold buildResult at hp
  obtain ⟨t, htmem, hteq⟩ := List.mem_map.mp hp
  exact ⟨t, List.mem_range.mp htmem, hteq.symm⟩

/-- In-range `getD` through a `map`. -/
theorem getD_map_rows (g : Row → ℚ) (l : List Row) {t : ℕ} (ht : t < l.length) :
    (l.map g).getD t 0 = g (l.getD t junkRow) := by
  rw [List.getD_eq_getElem _ _ (by simpa using ht), List.getD_eq_getElem _ _ ht]
  simp

/-- The display threshold is positive. -/
theorem eps_pos : 0 < eps := by norm_num [eps]

/-- `solW` satisfies every constraint of `lpW`. -/
theorem solW_feasible : feasibleB lpW solW = true := by
  simp only [feasibleB, lpW, solW, show List.range 2 = [0, 1] from rfl,
    List.all_cons, List.all_nil, Bool.and_eq_true, beq_iff_eq,
    decide_eq_true_eq, List.getD_cons_zero, List.getD_cons_succ]
  norm_num

/-- The full pipeline on `frameW` with the `solW` oracle returns `planW`. -/
theorem mvpW_ok : mvp_cost_minimiser (oracle solW) frameW cfgW = .ok planW := by
  have hclean : cleanFrame frameW = .ok frameW := rfl
  have hlp : mkLpData frameW cfgW = .ok lpW := rfl
  have hsolve : oracle solW lpW = ⟨.optimal, solW⟩ := by
    simp [oracle, solW_feasible]
  simp only [mvp_cost_minimiser, hclean, hlp, hsolve, if_pos]
  refine congrArg Except.ok ?_
  simp only [buildResult, show List.range 2 = [0, 1] from rfl, List.map_cons,
    List.map_nil, planW]
  norm_num [mkPlanRow, frameW, lpW, solW, eps, junkRow, cfgW, Cell.num,
    show List.range 2 = [0, 1] from rfl,
    List.getD_cons_zero, List.getD_cons_succ]

/-- A sum of differences over an index range splits into a difference of
sums. -/
theorem sum_map_sub (n : ℕ) (a b : ℕ → ℚ) :
    ((List.range n).map (fun t => a t - b t)).sum =
      ((List.range n).map a).sum - ((List.range n).map b).sum := by
  induction n with
  | zero => simp
  | succ m ih =>
    simp only [List.range_succ, List.map_append, List.sum_append,
      List.map_cons, List.sum_cons, List.map_nil, List.sum_nil, ih]
    ring

/-- Arithmetic shape of the threshold decomposition applied to one net
flow value. -/
theorem threshold_cases (x : ℚ) :
    (eps < x → (if eps < x then x else 0) = x ∧ (if x < -eps then -x else 0) = 0) ∧
    (x < -eps → (if x < -eps then -x else 0) = -x ∧ (if eps < x then x else 0) = 0) ∧
    (-eps ≤ x → x ≤ eps →
      (if eps < x then x else 0) = 0 ∧ (if x < -eps then -x else 0) = 0) ∧
    ((if eps < x then x else 0) = 0 ∨ (if x < -eps then -x else 0) = 0) := by
  have he := eps_pos
  refine ⟨fun h => ⟨if_pos h, if_neg (by linarith)⟩,
    fun h => ⟨if_pos h, if_neg (by linarith)⟩,
    fun h1 h2 => ⟨if_neg (by linarith), if_neg (by linarith)⟩, ?_⟩
  by_cases hx : eps < x
  · right
    exact if_neg (by linarith)
  · left
    exact if_neg hx

/-- C5: on every returned plan, every period's reported `soc_kwh` lies
within the configured SOC bounds, up to any nonnegative tolerance δ
(the bound in fact holds exactly, i.e. with δ = 0). -/
theorem C5_soc_within_bounds (solve : Solver) (f : Frame) (cfg : BatteryConfig)
    (plan : List PlanRow) (δ : ℚ) (hsound : SolverSound solve)
    (hok : mvp_cost_minimiser solve f cfg = .ok plan) (hδ : 0 ≤ δ) :
    ∀ p ∈ plan,
      cfg.min_soc_pct / 100 * cfg.battery_capacity_kwh - δ ≤ p.soc_kwh ∧
      p.soc_kwh ≤ cfg.max_soc_pct / 100 * cfg.battery_capacity_kwh + δ := by
  intro p hp
  obtain ⟨cleaned, lp, hc, hl, hst, hplan⟩ := mvp_ok_elim hok
  have hfeas := hsound lp hst
  subst hplan
  obtain ⟨t, ht, hpe⟩ := buildResult_mem hp
  subst hpe
  obtain ⟨-, -, -, -, -, -, -, hmin, hmax, -⟩ := mkLpData_ok_elim hl
  obtain ⟨-, -, -, -, -, hlo, hhi, -⟩ := feasible_at hfeas ht
  rw [mkPlanRow_soc]
  rw [hmin] at hlo
  rw [hmax] at hhi
  constructor
  · linarith
  · linarith

/-- Witness for C5 at the concrete plan `planW` (tolerance 1e-6): the
first period's state of charge 7.5 kWh respects the default 20..90 percent
bounds on a 15 kWh battery. -/
theorem C5_witness :
    cfgW.min_soc_pct / 100 * cfgW.battery_capacity_kwh - 1/1000000 ≤
      (planW.getD 0 junkPlanRow).soc_kwh ∧
    (planW.getD 0 junkPlanRow).soc_kwh ≤
      cfgW.max_soc_pct / 100 * cfgW.battery_capacity_kwh + 1/1000000 := by
  have h := C5_soc_within_bounds (oracle solW) frameW cfgW planW (1/1000000)
    (oracle_sound solW) mvpW_ok (by norm_num)
  exact h (planW.getD 0 junkPlanRow) (by simp [planW, junkPlanRow])

/-- C6: the display fields of every returned plan follow the
threshold decomposition of the net battery and net grid flows, and each
display pair is mutually exclusive. -/
theorem C6_display_decomposition (solve : Solver) (f : Frame)
    (cfg : BatteryConfig) (plan : List PlanRow)
    (hok : mvp_cost_minimiser solve f cfg = .ok plan) :
    ∀ p ∈ plan,
      (eps < p.net_battery_kwh →
        p.batt_charge_kwh = p.net_battery_kwh ∧ p.batt_discharge_kwh = 0) ∧
      (p.net_battery_kwh < -eps →
        p.batt_discharge_kwh = -p.net_battery_kwh ∧ p.batt_charge_kwh = 0) ∧
      (-eps ≤ p.net_battery_kwh → p.net_battery_kwh ≤ eps →
        p.batt_charge_kwh = 0 ∧ p.batt_discharge_kwh = 0) ∧
      (eps < p.net_grid_kwh →
        p.grid_import_kwh = p.net_grid_kwh ∧ p.grid_export_kwh = 0) ∧
      (p.net_grid_kwh < -eps →
        p.grid_export_kwh = -p.net_grid_kwh ∧ p.grid_import_kwh = 0) ∧
      (-eps ≤ p.net_grid_kwh → p.net_grid_kwh ≤ eps →
        p.grid_import_kwh = 0 ∧ p.grid_export_kwh = 0) ∧
      (p.batt_charge_kwh = 0 ∨ p.batt_discharge_kwh = 0) ∧
      (p.grid_import_kwh = 0 ∨ p.grid_export_kwh = 0) := by
  intro p hp
  obtain ⟨cleaned, lp, hc, hl, hst, hplan⟩ := mvp_ok_elim hok
  subst hplan
  obtain ⟨t, ht, hpe⟩ := buildResult_mem hp
  subst hpe
  rw [mkPlanRow_net_batt, mkPlanRow_net_grid, mkPlanRow_batt_charge,
    mkPlanRow_batt_discharge, mkPlanRow_grid_import, mkPlanRow_grid_export]
  obtain ⟨b1, b2, b3, b4⟩ := threshold_cases
    ((solve lp).primal.b_charge.getD t 0 - (solve lp).primal.b_discharge.getD t 0)
  obtain ⟨g1, g2, g3, g4⟩ := threshold_cases
    ((solve lp).primal.g_import.getD t 0 - (solve lp).primal.g_export.getD t 0)
  exact ⟨b1, b2, b3, g1, g2, g3, b4, g4⟩

/-- Witness for C6 at the concrete plan `planW`: in the first period the
net grid flow 0.5 kWh exceeds the threshold, the import display field
equals it, the export display field is 0, and the battery display pair is
mutually exclusive. -/
theorem C6_witness :
    (planW.getD 0 junkPlanRow).grid_import_kwh =
      (planW.getD 0 junkPlanRow).net_grid_kwh ∧
    (planW.getD 0 junkPlanRow).grid_export_kwh = 0 ∧
    ((planW.getD 0 junkPlanRow).batt_charge_kwh = 0 ∨
      (planW.getD 0 junkPlanRow).batt_discharge_kwh = 0) := by
  have h := C6_display_decomposition (oracle solW) frameW cfgW planW mvpW_ok
    (planW.getD 0 junkPlanRow) (by simp [planW, junkPlanRow])
  obtain ⟨-, -, -, h4, -, -, hb, -⟩ := h
  have hlt : eps < (planW.getD 0 junkPlanRow).net_grid_kwh := by
    norm_num [planW, eps, junkPlanRow]
  obtain ⟨hi, he⟩ := h4 hlt
  exact ⟨hi, he, hb⟩

/-- C4: the reported SOC trajectory of every returned plan obeys the
recurrence with the raw solved charge and discharge values, exactly:
`soc_kwh[0] = initial_soc_pct/100 * capacity + charge[0] - discharge[0]`
and `soc_kwh[t] = soc_kwh[t-1] + charge[t] - discharge[t]` for t > 0. -/
theorem C4_soc_recurrence (solve : Solver) (f cleaned : Frame)
    (cfg : BatteryConfig) (lp : LpData) (plan : List PlanRow)
    (hsound : SolverSound solve)
    (hclean : cleanFrame f = .ok cleaned)
    (hlp : mkLpData cleaned cfg = .ok lp)
    (hok : mvp_cost_minimiser solve f cfg = .ok plan) :
    (plan.getD 0 junkPlanRow).soc_kwh =
      cfg.initial_soc_pct / 100 * cfg.battery_capacity_kwh +
        ((solve lp).primal.b_charge.getD 0 0 -
          (solve lp).primal.b_discharge.getD 0 0) ∧
    ∀ t : ℕ, 0 < t → t < plan.length →
      (plan.getD t junkPlanRow).soc_kwh =
        (plan.getD (t - 1) junkPlanRow).soc_kwh +
          ((solve lp).primal.b_charge.getD t 0 -
            (solve lp).primal.b_discharge.getD t 0) := by
  obtain ⟨cleaned', lp', hc, hl, hst, hplan⟩ := mvp_ok_elim hok
  rw [hclean] at hc
  obtain rfl : cleaned = cleaned' := (Except.ok.injEq _ _).mp hc
  rw [hlp] at hl
  obtain rfl : lp = lp' := (Except.ok.injEq _ _).mp hl
  have hfeas := hsound lp hst
  subst hplan
  obtain ⟨-, hne, -, -, -⟩ := cleanFrame_ok_elim hclean
  obtain ⟨hn, -, -, -, -, -, -, -, -, hinit⟩ := mkLpData_ok_elim hlp
  have hn1 : 0 < lp.n := by
    rw [hn]
    exact List.length_pos.mpr hne
  constructor
  · rw [buildResult_getD cleaned cfg lp _ hn1, mkPlanRow_soc]
    obtain ⟨-, -, -, -, hrec, -⟩ := feasible_at hfeas hn1
    rw [if_pos rfl] at hrec
    rw [hrec, hinit]
    ring
  · intro t htpos htlen
    rw [buildResult_length] at htlen
    rw [buildResult_getD cleaned cfg lp _ htlen,
      buildResult_getD cleaned cfg lp _ (Nat.lt_of_le_of_lt (Nat.sub_le t 1) htlen),
      mkPlanRow_soc, mkPlanRow_soc]
    obtain ⟨-, -, -, -, hrec, -⟩ := feasible_at hfeas htlen
    rw [if_neg (Nat.pos_iff_ne_zero.mp htpos)] at hrec
    rw [hrec]
    ring

/-- Witness for C4 on the concrete plan `planW`: the first period's
7.5 kWh equals the 50 percent initial charge of the 15 kWh battery plus
the (zero) first-period net charge, and the second period continues the
recurrence. -/
theorem C4_witness :
    (planW.getD 0 junkPlanRow).soc_kwh =
      cfgW.initial_soc_pct / 100 * cfgW.battery_capacity_kwh +
        ((oracle solW lpW).primal.b_charge.getD 0 0 -
          (oracle solW lpW).primal.b_discharge.getD 0 0) ∧
    (planW.getD 1 junkPlanRow).soc_kwh =
      (planW.getD 0 junkPlanRow).soc_kwh +
        ((oracle solW lpW).primal.b_charge.getD 1 0 -
          (oracle solW lpW).primal.b_discharge.getD 1 0) := by
  have h := C4_soc_recurrence (oracle solW) frameW frameW cfgW lpW planW
    (oracle_sound solW) rfl rfl mvpW_ok
  exact ⟨h.1, h.2 1 (by norm_num) (by norm_num [planW])⟩

/-- C7: every returned plan's `cost_gbp` is computed from the raw solved
grid flows and the pence-to-pounds converted prices, not from the
thresholded display fields:
`cost_gbp[t] = g_import[t] * (price[t]/100) - g_export[t] * (export_price_pence/100)`. -/
theorem C7_cost_from_raw_flows (solve : Solver) (f cleaned : Frame)
    (cfg : BatteryConfig) (lp : LpData) (plan : List PlanRow)
    (hclean : cleanFrame f = .ok cleaned)
    (hlp : mkLpData cleaned cfg = .ok lp)
    (hok : mvp_cost_minimiser solve f cfg = .ok plan) :
    ∀ t : ℕ, t < plan.length →
      (plan.getD t junkPlanRow).cost_gbp =
        (solve lp).primal.g_import.getD t 0 *
          ((cleaned.rows.getD t junkRow).price.num / 100) -
        (solve lp).primal.g_export.getD t 0 *
          (cfg.export_price_pence / 100) := by
  obtain ⟨cleaned', lp', hc, hl, hst, hplan⟩ := mvp_ok_elim hok
  rw [hclean] at hc
  obtain rfl : cleaned = cleaned' := (Except.ok.injEq _ _).mp hc
  rw [hlp] at hl
  obtain rfl : lp = lp' := (Except.ok.injEq _ _).mp hl
  subst hplan
  obtain ⟨hn, hip, -, -, hexp, -⟩ := mkLpData_ok_elim hlp
  intro t htlen
  rw [buildResult_length] at htlen
  rw [buildResult_getD cleaned cfg lp _ htlen, mkPlanRow_cost, hip, hexp,
    getD_map_rows _ _ (by rw [← hn]; exact htlen)]

/-- Witness for C7 on the concrete plan `planW`: the first period's cost
0.05 pounds is 0.5 kWh at 10 pence, converted to pounds, computed from the
raw solved flows. -/
theorem C7_witness :
    (planW.getD 0 junkPlanRow).cost_gbp =
      (oracle solW lpW).primal.g_import.getD 0 0 *
        ((frameW.rows.getD 0 junkRow).price.num / 100) -
      (oracle solW lpW).primal.g_export.getD 0 0 *
        (cfgW.export_price_pence / 100) :=
  C7_cost_from_raw_flows (oracle solW) frameW frameW cfgW lpW planW
    rfl rfl mvpW_ok 0 (by norm_num [planW])

/-- C1 (amended): on every returned plan the energy balance holds exactly
over the signed net fields, and over the thresholded display fields it
holds within the absolute tolerance `2 * eps` (0.002 kWh) — not, in
general, within relative tolerance 1e-5. -/
theorem C1_display_balance_within_two_eps (solve : Solver) (f : Frame)
    (cfg : BatteryConfig) (plan : List PlanRow) (hsound : SolverSound solve)
    (hok : mvp_cost_minimiser solve f cfg = .ok plan) :
    ∀ p ∈ plan,
      p.solar + p.net_grid_kwh = p.demand + p.net_battery_kwh ∧
      |p.solar + p.batt_discharge_kwh + p.grid_import_kwh -
        (p.demand + p.batt_charge_kwh + p.grid_export_kwh)| ≤ 2 * eps := by
  intro p hp
  obtain ⟨cleaned, lp, hc, hl, hst, hplan⟩ := mvp_ok_elim hok
  have hfeas := hsound lp hst
  subst hplan
  obtain ⟨t, ht, hpe⟩ := buildResult_mem hp
  subst hpe
  obtain ⟨-, -, -, -, -, -, -, -, -, -, -, hbal⟩ := feasible_at hfeas ht
  rw [mkPlanRow_solar, mkPlanRow_demand, mkPlanRow_net_batt, mkPlanRow_net_grid,
    mkPlanRow_batt_charge, mkPlanRow_batt_discharge, mkPlanRow_grid_import,
    mkPlanRow_grid_export]
  have he := eps_pos
  constructor
  · linarith
  · rw [abs_le]
    constructor
    · split_ifs <;> linarith
    · split_ifs <;> linarith

/-- Witness for C1 on the concrete plan `planW`: the first period balances
exactly on the net fields and within 0.002 on the display fields. -/
theorem C1_witness :
    (planW.getD 0 junkPlanRow).solar + (planW.getD 0 junkPlanRow).net_grid_kwh =
      (planW.getD 0 junkPlanRow).demand +
        (planW.getD 0 junkPlanRow).net_battery_kwh ∧
    |(planW.getD 0 junkPlanRow).solar +
        (planW.getD 0 junkPlanRow).batt_discharge_kwh +
        (planW.getD 0 junkPlanRow).grid_import_kwh -
      ((planW.getD 0 junkPlanRow).demand +
        (planW.getD 0 junkPlanRow).batt_charge_kwh +
        (planW.getD 0 junkPlanRow).grid_export_kwh)| ≤ 2 * eps :=
  C1_display_balance_within_two_eps (oracle solW) frameW cfgW planW
    (oracle_sound solW) mvpW_ok (planW.getD 0 junkPlanRow)
    (by simp [planW, junkPlanRow])

/-- C10: the post-filter defaulting step never fires.  Every row surviving
the finite-row filter satisfies the keep mask, so every present required
column of the cleaned series holds a finite value and `fillna` has nothing
to fill; consequently the optimiser with the defaulting lines removed
returns an identical result on every input, for every solver. -/
theorem C10_fillna_is_dead_code :
    ∀ (solve : Solver) (f : Frame) (cfg : BatteryConfig),
      (∀ cleaned, cleanFrame f = .ok cleaned →
          ∀ r ∈ cleaned.rows, rowKeep f r = true) ∧
      mvp_cost_minimiser solve f cfg = mvp_cost_minimiser_nofill solve f cfg := by
  intro solve f cfg
  constructor
  · intro cleaned hc r hr
    obtain ⟨hrows, -, -⟩ := cleanFrame_ok_elim hc
    rw [hrows] at hr
    exact List.of_mem_filter hr
  · unfold mvp_cost_minimiser mvp_cost_minimiser_nofill
    rw [cleanFrame_eq_nofill]

/-- Witness for C10 at a concrete input: the first row of `frameW` passes
the keep mask, and the two optimiser variants agree on `frameW`. -/
theorem C10_witness :
    rowKeep frameW ⟨0, .val 0, .val 10, .val (1/2)⟩ = true ∧
    mvp_cost_minimiser (oracle solW) frameW cfgW =
      mvp_cost_minimiser_nofill (oracle solW) frameW cfgW := by
  refine ⟨?_, (C10_fillna_is_dead_code (oracle solW) frameW cfgW).2⟩
  exact (C10_fillna_is_dead_code (oracle solW) frameW cfgW).1 frameW
    rfl ⟨0, .val 0, .val 10, .val (1/2)⟩ (List.mem_cons_self _ _)

/-- C2 counterexample: the claim says the minimised objective carries a
foresight charging-incentive term of default weight 0.01.  At the concrete
program `lpC2` and assignment `solC2` (1 kWh charged in the cheap period),
the code's objective differs from that claimed default objective. -/
theorem C2_counterexample :
    objective lpC2 solC2 ≠ spec_objective (1/100) lpC2 solC2 := by
  norm_num [objective, spec_objective, maxImportPrice, lpC2, solC2,
    show List.range 2 = [0, 1] from rfl]

/-- C2 amended: the code's minimised objective is the spec's configurable
foresight family at weight 0 — base cost plus the 0.001 grid penalty and no
charging-incentive term at all (the weight is neither configurable nor
defaulted to a non-zero value). -/
theorem C2_objective_is_foresight_weight_zero :
    ∀ (lp : LpData) (s : Solution), objective lp s = spec_objective 0 lp s := by
  intro lp s
  unfold objective spec_objective
  rw [sum_map_sub lp.n (fun t => s.g_import.getD t 0 * lp.import_prices.getD t 0)
    (fun t => s.g_export.getD t 0 * lp.export_price_gbp)]
  ring

/-- C3: (i) whenever the solver's terminal status on the built program is
not optimal, the call fails with the solver error and returns no plan;
(ii) with the inverted SOC bounds `min_soc_pct = 90`, `max_soc_pct = 20`
and a positive capacity, the built program is infeasible, so a sound solver
can never report an optimal status and no plan is ever returned. -/
theorem C3_non_optimal_raises :
    (∀ (solve : Solver) (f cleaned : Frame) (cfg : BatteryConfig) (lp : LpData),
        cleanFrame f = .ok cleaned → mkLpData cleaned cfg = .ok lp →
        (solve lp).status ≠ .optimal →
        mvp_cost_minimiser solve f cfg = .error .solverError) ∧
    (∀ (solve : Solver) (f : Frame) (cfg : BatteryConfig) (plan : List PlanRow),
        SolverSound solve →
        cfg.min_soc_pct = 90 → cfg.max_soc_pct = 20 →
        0 < cfg.battery_capacity_kwh →
        mvp_cost_minimiser solve f cfg ≠ .ok plan) := by
  constructor
  · intro solve f cleaned cfg lp hc hl hs
    simp only [mvp_cost_minimiser, hc, hl]
    simp [hs]
  · intro solve f cfg plan hsound h90 h20 hcap hok
    obtain ⟨cleaned, lp, hc, hl, hst, hplan⟩ := mvp_ok_elim hok
    have hfeas := hsound lp hst
    obtain ⟨hrows, hne, -, -, -⟩ := cleanFrame_ok_elim hc
    obtain ⟨hn, -, -, -, -, -, -, hmin, hmax, -⟩ := mkLpData_ok_elim hl
    have hn1 : 0 < lp.n := by
      rw [hn]
      exact List.length_pos.mpr hne
    obtain ⟨-, -, -, -, -, hlo, hhi, -⟩ := feasible_at hfeas hn1
    rw [hmin, h90] at hlo
    rw [hmax, h20] at hhi
    have hcontra : (90 / 100 : ℚ) * cfg.battery_capacity_kwh ≤
        (20 / 100) * cfg.battery_capacity_kwh := le_trans hlo hhi
    nlinarith

/-- Witness for C3: a solver reporting failure on `frameW` yields the
solver error, and no sound solver returns a plan under the inverted
bounds. -/
theorem C3_witness :
    mvp_cost_minimiser failingSolver frameW cfgW = .error .solverError ∧
    mvp_cost_minimiser (oracle solW) frameW
      { cfgW with min_soc_pct := 90, max_soc_pct := 20 } ≠ .ok [] := by
  constructor
  · exact C3_non_optimal_raises.1 failingSolver frameW frameW cfgW lpW
      rfl rfl (by intro h; cases h)
  · exact C3_non_optimal_raises.2 (oracle solW) frameW
      { cfgW with min_soc_pct := 90, max_soc_pct := 20 } []
      (oracle_sound solW) rfl rfl (by norm_num [cfgW])

/-- C8: (i) whenever some numeric column is present but the sorted-filtered
series is empty, the call fails with the no-data error for every solver (no
LP is ever built or solved); (ii) in particular this happens whenever the
demand column is present and every row's demand is missing. -/
theorem C8_empty_cleaned_raises_no_data :
    (∀ (solve : Solver) (f : Frame) (cfg : BatteryConfig),
        (f.hasPrice || f.hasPv || f.hasDemand) = true →
        (f.rows.insertionSort rowLe).filter (rowKeep f) = [] →
        mvp_cost_minimiser solve f cfg = .error .noDataError) ∧
    (∀ (solve : Solver) (f : Frame) (cfg : BatteryConfig),
        f.hasDemand = true → (∀ r ∈ f.rows, r.demand = Cell.na) →
        mvp_cost_minimiser solve f cfg = .error .noDataError) := by
  have main : ∀ (solve : Solver) (f : Frame) (cfg : BatteryConfig),
      (f.hasPrice || f.hasPv || f.hasDemand) = true →
      (f.rows.insertionSort rowLe).filter (rowKeep f) = [] →
      mvp_cost_minimiser solve f cfg = .error .noDataError := by
    intro solve f cfg hcols hempty
    simp [mvp_cost_minimiser, cleanFrame, hcols, hempty]
  refine ⟨main, ?_⟩
  intro solve f cfg hd hnull
  have hempty : (f.rows.insertionSort rowLe).filter (rowKeep f) = [] := by
    rw [List.filter_eq_nil_iff]
    intro r hr
    have hrmem : r ∈ f.rows := (List.mem_insertionSort rowLe).mp hr
    have hna : r.demand = Cell.na := hnull r hrmem
    simp [rowKeep, hd, hna, Cell.isFiniteVal]
  exact main solve f cfg (by simp [hd]) hempty

/-- Witness for C8: on the all-missing-demand frame the call fails with
the no-data error. -/
theorem C8_witness :
    mvp_cost_minimiser failingSolver frameAllNullDemand cfgW =
      .error .noDataError :=
  C8_empty_cleaned_raises_no_data.2 failingSolver frameAllNullDemand cfgW
    (by decide) (by decide)

/-- The full pipeline on `frameC1` with the `solC1` oracle returns exactly
the single record `planRowC1`. -/
theorem mvpC1_ok :
    mvp_cost_minimiser (oracle solC1) frameC1 cfgC1 = .ok [planRowC1] := by
  have hclean : cleanFrame frameC1 = .ok frameC1 := rfl
  have hlp : mkLpData frameC1 cfgC1 = .ok lpC1 := rfl
  have hfeas : feasibleB lpC1 solC1 = true := by
    simp only [feasibleB, lpC1, solC1, show List.range 1 = [0] from rfl,
      List.all_cons, List.all_nil, Bool.and_eq_true, beq_iff_eq,
      decide_eq_true_eq, List.getD_cons_zero]
    norm_num
  have hsolve : oracle solC1 lpC1 = ⟨.optimal, solC1⟩ := by
    simp [oracle, hfeas]
  simp only [mvp_cost_minimiser, hclean, hlp, hsolve, if_pos]
  refine congrArg Except.ok ?_
  simp only [buildResult, show List.range 1 = [0] from rfl, List.map_cons,
    List.map_nil]
  norm_num [mkPlanRow, planRowC1, frameC1, lpC1, solC1, cfgC1, eps, junkRow,
    Cell.num, show List.range 1 = [0] from rfl, List.getD_cons_zero]

/-- `solC1` is not merely feasible for `lpC1` but optimal: every feasible
assignment attains at least its objective value.  The C1 counterexample
plan is therefore exactly what an exact LP solver returns on
`frameC1`/`cfgC1`, not an artefact of the solver model. -/
theorem solC1_optimal (s : Solution) (hs : Feasible lpC1 s) :
    objective lpC1 solC1 ≤ objective lpC1 s := by
  obtain ⟨hc0, hd0, hgi0, hge0, hrec, hlo, hhi, hcc, hdc, hgic, hgec, hbal⟩ :=
    feasible_at hs (show 0 < lpC1.n by norm_num [lpC1])
  rw [if_pos rfl] at hrec
  simp only [objective, lpC1, solC1, show List.range 1 = [0] from rfl,
    List.map_cons, List.map_nil, List.sum_cons, List.sum_nil,
    List.getD_cons_zero] at *
  norm_num at *
  linarith

/-- C1 counterexample: the oracle returning the optimal assignment `solC1`
is a sound solver, the pipeline on `frameC1`/`cfgC1` returns the single
record `planRowC1`, and that record violates the claimed energy-balance
identity over the display fields at relative tolerance 1e-5: the raw
0.0005 kWh grid import falls below the 0.001 display threshold, so the
display side loses the entire demand. -/
theorem C1_counterexample :
    SolverSound (oracle solC1) ∧
    mvp_cost_minimiser (oracle solC1) frameC1 cfgC1 = .ok [planRowC1] ∧
    ¬ withinRtol
        (planRowC1.solar + planRowC1.batt_discharge_kwh +
          planRowC1.grid_import_kwh)
        (planRowC1.demand + planRowC1.batt_charge_kwh +
          planRowC1.grid_export_kwh)
        (1/100000) := by
  refine ⟨oracle_sound solC1, mvpC1_ok, ?_⟩
  simp only [withinRtol, planRowC1, not_le]
  rw [show ((0:ℚ) + 0 + 0 - (1/2000 + 0 + 0)) = -(1/2000) by ring]
  rw [abs_neg, abs_of_nonneg (by norm_num : (0:ℚ) ≤ 1/2000),
    abs_of_nonneg (by norm_num : (0:ℚ) ≤ 1/2000 + 0 + 0)]
  norm_num

/-- The plan's timestamp column equals the cleaned frame's timestamp
column. -/
theorem buildResult_map_periodEnd (f : Frame) (cfg : BatteryConfig)
    (lp : LpData) (s : Solution) (hn : lp.n = f.rows.length) :
    (buildResult f cfg lp s).map PlanRow.periodEnd =
      f.rows.map Row.periodEnd := by
  apply List.ext_getElem
  · simp [buildResult, hn]
  · intro i h1 h2
    have hi : i < f.rows.length := by simpa using h2
    simp only [buildResult, List.getElem_map, List.getElem_range,
      mkPlanRow_periodEnd]
    rw [List.getD_eq_getElem _ _ hi]

/-- The timestamp column of any returned plan is the timestamp column of
the sorted, filtered input rows. -/
theorem plan_map_periodEnd {solve : Solver} {f : Frame} {cfg : BatteryConfig}
    {plan : List PlanRow}
    (hok : mvp_cost_minimiser solve f cfg = .ok plan) :
    plan.map PlanRow.periodEnd =
      ((f.rows.insertionSort rowLe).filter (rowKeep f)).map Row.periodEnd := by
  obtain ⟨cleaned, lp, hc, hl, hst, hplan⟩ := mvp_ok_elim hok
  obtain ⟨hrows, -, -, -, -⟩ := cleanFrame_ok_elim hc
  obtain ⟨hn, -⟩ := mkLpData_ok_elim hl
  subst hplan
  rw [buildResult_map_periodEnd cleaned cfg lp _ hn, hrows]

/-- On a list with pairwise-distinct timestamps, counting the rows that
both carry a given member's timestamp and pass the keep mask yields 1 when
that member passes the mask and 0 otherwise. -/
theorem countP_ts_nodup (f : Frame) :
    ∀ (l : List Row), (l.map Row.periodEnd).Nodup → ∀ r ∈ l,
      l.countP (fun x => x.periodEnd == r.periodEnd && rowKeep f x) =
        if rowKeep f r then 1 else 0 := by
  intro l
  induction l with
  | nil =>
    intro _ r hr
    cases hr
  | cons h tl ih =>
    intro hnd r hr
    rw [List.map_cons, List.nodup_cons] at hnd
    obtain ⟨hnotin, hnd2⟩ := hnd
    rw [List.countP_cons]
    rcases List.mem_cons.mp hr with hrh | hrt
    · subst hrh
      have hz : tl.countP (fun x => x.periodEnd == r.periodEnd && rowKeep f x) = 0 := by
        rw [List.countP_eq_zero]
        intro x hx
        simp only [Bool.and_eq_true, beq_iff_eq, not_and]
        intro hts _
        exact hnotin (hts ▸ List.mem_map_of_mem Row.periodEnd hx)
      rw [hz]
      simp
    · have hne : h.periodEnd ≠ r.periodEnd := by
        intro he
        exact hnotin (he ▸ List.mem_map_of_mem Row.periodEnd hrt)
      rw [ih hnd2 r hrt]
      simp [hne]

/-- C9: assuming pairwise-distinct input timestamps, every returned plan
has exactly one record for each input row whose present required columns
are all finite (and none for a dropped row), every plan record's timestamp
comes from such a kept row, and the records are in ascending timestamp
order. -/
theorem C9_one_record_per_kept_period (solve : Solver) (f : Frame)
    (cfg : BatteryConfig) (plan : List PlanRow)
    (hok : mvp_cost_minimiser solve f cfg = .ok plan)
    (hnodup : (f.rows.map Row.periodEnd).Nodup) :
    (∀ r ∈ f.rows,
        plan.countP (fun p => p.periodEnd == r.periodEnd) =
          if rowKeep f r then 1 else 0) ∧
    (∀ p ∈ plan, ∃ r ∈ f.rows, rowKeep f r = true ∧
        r.periodEnd = p.periodEnd) ∧
    plan.Pairwise (fun p q => p.periodEnd ≤ q.periodEnd) := by
  have hmap := plan_map_periodEnd hok
  have hperm := List.perm_insertionSort rowLe f.rows
  refine ⟨?_, ?_, ?_⟩
  · intro r hr
    have h1 : plan.countP (fun p => p.periodEnd == r.periodEnd) =
        (plan.map PlanRow.periodEnd).countP (fun z => z == r.periodEnd) := by
      rw [List.countP_map]
      rfl
    rw [h1, hmap, List.countP_map]
    have h2 : ((f.rows.insertionSort rowLe).filter (rowKeep f)).countP
          (fun x => x.periodEnd == r.periodEnd) =
        (f.rows.insertionSort rowLe).countP
          (fun x => x.periodEnd == r.periodEnd && rowKeep f x) := by
      rw [List.countP_filter]
    rw [show ((fun z => z == r.periodEnd) ∘ Row.periodEnd) =
        (fun x : Row => x.periodEnd == r.periodEnd) from rfl, h2,
      hperm.countP_eq]
    exact countP_ts_nodup f f.rows hnodup r hr
  · intro p hp
    have hts : p.periodEnd ∈ plan.map PlanRow.periodEnd :=
      List.mem_map_of_mem PlanRow.periodEnd hp
    rw [hmap] at hts
    obtain ⟨x, hxmem, hxeq⟩ := List.mem_map.mp hts
    have hxfil := List.mem_filter.mp hxmem
    exact ⟨x, hperm.mem_iff.mp hxfil.1, hxfil.2, hxeq⟩
  · have hsor : (f.rows.insertionSort rowLe).Pairwise rowLe :=
      List.sorted_insertionSort rowLe f.rows
    have hfil : ((f.rows.insertionSort rowLe).filter (rowKeep f)).Pairwise rowLe :=
      hsor.filter (rowKeep f)
    have hmapped : (((f.rows.insertionSort rowLe).filter (rowKeep f)).map
        Row.periodEnd).Pairwise (fun a b : ℤ => a ≤ b) :=
      List.pairwise_map.mpr hfil
    rw [← hmap] at hmapped
    exact List.pairwise_map.mp hmapped

/-- The full pipeline on the unsorted, partly non-finite `frameC9` with
the `solC9` oracle returns `planC9`. -/
theorem mvpC9_ok :
    mvp_cost_minimiser (oracle solC9) frameC9 cfgW = .ok planC9 := by
  have hclean : cleanFrame frameC9 = .ok frameC9Clean := rfl
  have hlp : mkLpData frameC9Clean cfgW = .ok lpC9 := rfl
  have hfeas : feasibleB lpC9 solC9 = true := by
    simp only [feasibleB, lpC9, solC9, show List.range 2 = [0, 1] from rfl,
      List.all_cons, List.all_nil, Bool.and_eq_true, beq_iff_eq,
      decide_eq_true_eq, List.getD_cons_zero, List.getD_cons_succ]
    norm_num
  have hsolve : oracle solC9 lpC9 = ⟨.optimal, solC9⟩ := by
    simp [oracle, hfeas]
  simp only [mvp_cost_minimiser, hclean, hlp, hsolve, if_pos]
  refine congrArg Except.ok ?_
  simp only [buildResult, show List.range 2 = [0, 1] from rfl, List.map_cons,
    List.map_nil]
  norm_num [mkPlanRow, planC9, frameC9Clean, lpC9, solC9, cfgW, eps, junkRow,
    Cell.num, show List.range 2 = [0, 1] from rfl,
    List.getD_cons_zero, List.getD_cons_succ]

/-- Witness for C9 on the concrete `frameC9` (rows arriving out of order,
one row with a non-finite price): the dropped 1800 timestamp has no plan
record, the kept 0 timestamp has exactly one, and the plan is in ascending
timestamp order. -/
theorem C9_witness :
    planC9.countP (fun p => p.periodEnd == 1800) = 0 ∧
    planC9.countP (fun p => p.periodEnd == 0) = 1 ∧
    planC9.Pairwise (fun p q => p.periodEnd ≤ q.periodEnd) := by
  have h := C9_one_record_per_kept_period (oracle solC9) frameC9 cfgW planC9
    mvpC9_ok (by decide)
  refine ⟨?_, ?_, h.2.2⟩
  · have h18 := h.1 ⟨1800, .val 0, .inf, .val (1/2)⟩
      (List.mem_cons_of_mem _ (List.mem_cons_of_mem _ (List.mem_cons_self _ _)))
    simpa [rowKeep, Cell.isFiniteVal, frameC9] using h18
  · have h0 := h.1 ⟨0, .val 0, .val 10, .val (1/2)⟩
      (List.mem_cons_of_mem _ (List.mem_cons_self _ _))
    simpa [rowKeep, Cell.isFiniteVal, frameC9] using h0

end HomeBattery
